import Mathlib

/-!
# Verification of the visual regression comparison engine

Shallow embedding of `scripts/visual-diff.py`: images are lists of rows of
RGB pixels (natural channel values), scores are rationals, and the script's
functions are translated into executable Lean definitions, over which the
specification's claims are stated and settled.
-/

namespace VisualDiff

/-- An RGB pixel: three channel values (0–255 in the source). -/
abbrev Pixel := ℕ × ℕ × ℕ

/-- An image as a list of rows of pixels (`Image.getdata` flattens rows). -/
abbrev Img := List (List Pixel)

/-- Absolute difference of two channel values (`abs(a - b)` on ints). -/
def chDiff (a b : ℕ) : ℕ := max a b - min a b

/-- One pixel pair "matches" when every channel's absolute difference is
`<= 10` (`all(abs(a - b) <= 10 for a, b in zip(p1, p2))`, line 45). -/
def pixelMatches (p1 p2 : Pixel) : Bool :=
  chDiff p1.1 p2.1 ≤ 10 && chDiff p1.2.1 p2.2.1 ≤ 10 && chDiff p1.2.2 p2.2.2 ≤ 10

/-- `calculate_pixel_similarity` (lines 25–48) on the equal-dimension case
(the dimension-normalising resize on line 29 is a Pillow call performed
before this computation; the embedding covers the compared pixel data).
Flattens both images, counts matching pixel pairs over `zip`, and returns
`matching / total * 100`, with `total` the pixel count of the first image
and `0.0` for a zero-pixel image (lines 38–48). -/
def calculate_pixel_similarity (img1 img2 : Img) : ℚ :=
  let pixels1 := img1.flatten
  let pixels2 := img2.flatten
  let total := pixels1.length
  if total = 0 then 0
  else
    let matching := (pixels1.zip pixels2).countP (fun pq => pixelMatches pq.1 pq.2)
    ((matching : ℚ) / (total : ℚ)) * 100

/-- The pass/fail expression used on lines 576 and 578:
`"pass" if score >= threshold else "fail"`. -/
def statusFor (score threshold : ℚ) : String :=
  if score ≥ threshold then "pass" else "fail"

/-- Status selection of lines 574–578: when the primary metric is `"ssim"`
and an SSIM score was computed, compare it to the threshold; otherwise
compare the pixel similarity to the threshold. -/
def pageStatus (metric : String) (ssimScore : Option ℚ) (pixelSim threshold : ℚ) :
    String :=
  match ssimScore with
  | some s => if metric = "ssim" then statusFor s threshold else statusFor pixelSim threshold
  | none => statusFor pixelSim threshold

/-- Metric resolution of lines 486–490: a request for `"ssim"` without the
scikit-image capability downgrades to `"pixel"`. -/
def resolveMetric (metric : String) (hasSSIM : Bool) : String :=
  if metric = "ssim" ∧ hasSSIM = false then "pixel" else metric

/-- Threshold resolution of lines 492–495: an explicit `--threshold` wins,
otherwise `0.95` for SSIM and `95.0` for pixel. -/
def resolveThreshold (argThreshold : Option ℚ) (metric : String) : ℚ :=
  match argThreshold with
  | some t => t
  | none => if metric = "ssim" then 95 / 100 else 95

/-! ## Region partitioner (`calculate_region_scores`, lines 111–154) -/

/-- A region record `{"label": ..., "score": ..., "metric": ...}`. -/
structure RegionScore where
  label : String
  score : ℚ
  metric : String
deriving DecidableEq, Repr

/-- The crop box of band `i` (lines 131–134): `top = i * band_height`,
`bottom = height` for the last band and `(i + 1) * band_height` otherwise,
where `band_height = height // num_regions` (line 128). Returned as
`(top, bottom)`; the horizontal extent is always the full width. -/
def crop_box (height numRegions i : ℕ) : ℕ × ℕ :=
  let bandHeight := height / numRegions
  (i * bandHeight, if i = numRegions - 1 then height else (i + 1) * bandHeight)

/-- `img.crop((0, top, width, bottom))`: keep rows `top` up to `bottom`. -/
def cropRows (img : Img) (top bottom : ℕ) : Img :=
  (img.drop top).take (bottom - top)

/-- The band label of lines 140–145. -/
def regionLabel (numRegions i : ℕ) : String :=
  if i = 0 then "Region " ++ toString (i + 1) ++ " (top)"
  else if i = numRegions - 1 then "Region " ++ toString (i + 1) ++ " (bottom)"
  else "Region " ++ toString (i + 1)

/-- `calculate_region_scores` (lines 111–154) on the equal-dimension case.
The SSIM computation itself lives in scikit-image, so it is passed in as a
scoring function `ssimF`; `hasSSIM` is the module-level `_HAS_SSIM` flag.
Height is the row count of `img1`. Each band crops both images to the same
box and scores it with SSIM when `metric == "ssim" and _HAS_SSIM`
(lines 147–149) and with pixel similarity otherwise (lines 150–152). -/
def calculate_region_scores (ssimF : Img → Img → ℚ) (hasSSIM : Bool)
    (img1 img2 : Img) (numRegions : ℕ) (metric : String) : List RegionScore :=
  let height := img1.length
  (List.range numRegions).map fun i =>
    let box := crop_box height numRegions i
    let region1 := cropRows img1 box.1 box.2
    let region2 := cropRows img2 box.1 box.2
    let label := regionLabel numRegions i
    if metric = "ssim" ∧ hasSSIM = true then
      { label := label, score := ssimF region1 region2, metric := "ssim" }
    else
      { label := label, score := calculate_pixel_similarity region1 region2,
        metric := "pixel" }

/-! ## Diff visualizer (`generate_diff_image`, lines 197–226) -/

/-- `ImageChops.difference`: per-channel absolute difference, per pixel. -/
def diffPixel (p q : Pixel) : Pixel :=
  (chDiff p.1 q.1, chDiff p.2.1 q.2.1, chDiff p.2.2 q.2.2)

/-- An RGBA overlay pixel. -/
abbrev RGBA := ℕ × ℕ × ℕ × ℕ

/-- The per-pixel highlight rule of lines 213–219: if the summed channel
difference exceeds 30, a red pixel with `alpha = min(255, total_diff * 2)`;
otherwise a fully transparent pixel. -/
def highlightPixel (d : Pixel) : RGBA :=
  let totalDiff := d.1 + d.2.1 + d.2.2
  if totalDiff > 30 then (255, 0, 0, min 255 (totalDiff * 2))
  else (0, 0, 0, 0)

/-- The overlay data (lines 205–221) for two flattened pixel lists. -/
def highlightData (data1 data2 : List Pixel) : List RGBA :=
  (List.zipWith diffPixel data1 data2).map highlightPixel

/-- Modelled from Pillow's `Image.alpha_composite` (line 225) for an opaque
base: source-over compositing, `out = (over * alpha + base * (255 - alpha))
/ 255` per channel, computed exactly over the rationals. -/
def alphaCompositePixel (base : Pixel) (over : RGBA) : ℚ × ℚ × ℚ :=
  let a : ℚ := over.2.2.2
  (((over.1 : ℚ) * a + (base.1 : ℚ) * (255 - a)) / 255,
   ((over.2.1 : ℚ) * a + (base.2.1 : ℚ) * (255 - a)) / 255,
   ((over.2.2.1 : ℚ) * a + (base.2.2 : ℚ) * (255 - a)) / 255)

/-- `generate_diff_image` (lines 197–226) on the equal-dimension case, as
flattened pixel data: the red-highlight overlay composited over the
original image. -/
def generate_diff_image (data1 data2 : List Pixel) : List (ℚ × ℚ × ℚ) :=
  List.zipWith alphaCompositePixel data1 (highlightData data1 data2)

/-! ## Pairing matcher (`match_screenshots`, lines 229–258) -/

/-- `pathlib`'s split of a file name into stem and suffix: the suffix is
`name[i:]` for the last dot position `i` when `0 < i < len(name) - 1`,
otherwise empty. Returns `(stem, suffix)`. -/
def splitName (s : String) : String × String :=
  let cs := s.data
  match (cs.reverse.findIdx? (· == '.')).map (fun j => cs.length - 1 - j) with
  | some i =>
    if 0 < i ∧ i < cs.length - 1 then (⟨cs.take i⟩, ⟨cs.drop i⟩) else (s, "")
  | none => (s, "")

/-- `Path.stem`: file name without its suffix. -/
def stem (s : String) : String := (splitName s).1

/-- `Path.suffix`: the extension, dot included, or empty. -/
def ext (s : String) : String := (splitName s).2

/-- ASCII lowercasing of one character (`str.lower` on the characters the
extension filter concerns). -/
def lowerChar (c : Char) : Char :=
  if 65 ≤ c.toNat ∧ c.toNat ≤ 90 then Char.ofNat (c.toNat + 32) else c

/-- `.lower()` on a file extension, character by character. -/
def lowerStr (s : String) : String := ⟨s.data.map lowerChar⟩

/-- Line 236/241: `f.suffix.lower() in (".png", ".jpg", ".jpeg", ".webp")`. -/
def allowedExt (f : String) : Bool :=
  [".png", ".jpg", ".jpeg", ".webp"].contains (lowerStr (ext f))

/-- Assignment `d[k] = v` on an association list: replace the value at an
existing key in place, else append the binding. -/
def insertAssoc (k v : String) : List (String × String) → List (String × String)
  | [] => [(k, v)]
  | (k', v') :: t => if k' = k then (k', v) :: t else (k', v') :: insertAssoc k v t

/-- Dict lookup `d[k]` / `k in d` on an association list. -/
def lookupAssoc (k : String) : List (String × String) → Option String
  | [] => none
  | (k', v) :: t => if k' = k then some v else lookupAssoc k t

/-- The dict-building loops of lines 234–242: iterate the directory's
files, keep those with an allowed image extension, and map stem to file. -/
def buildFilesAux (acc : List (String × String)) : List String → List (String × String)
  | [] => acc
  | f :: rest =>
      buildFilesAux (if allowedExt f then insertAssoc (stem f) f acc else acc) rest

/-- `original_files` / `clone_files`: stem-to-file dict of a directory. -/
def buildFiles (files : List String) : List (String × String) :=
  buildFilesAux [] files

/-- Lexicographic code-point comparison of two character lists: the
Boolean form of `≤` on strings (Python's string ordering). -/
def charsLe : List Char → List Char → Bool
  | [], _ => true
  | _ :: _, [] => false
  | a :: as, b :: bs => if a < b then true else if b < a then false else charsLe as bs

/-- Boolean string comparison used for sorting dict items by key. -/
def strLe (a b : String) : Bool := charsLe a.data b.data

/-- `sorted(d.items())`: items in ascending key order (keys are unique).
`strLe` agrees with `≤` on `String` (`strLe_iff_le` below). -/
def sortItems (l : List (String × String)) : List (String × String) :=
  List.insertionSort (fun a b => strLe a.1 b.1 = true) l

/-- `charsLe` decides the negation of core's lexicographic `List.lt`. -/
theorem charsLe_iff : ∀ as bs : List Char, charsLe as bs = true ↔ ¬ List.lt bs as
  | [], [] => by
    simp only [charsLe]
    exact ⟨fun _ h => (nomatch h), fun _ => trivial⟩
  | [], _ :: _ => by
    simp only [charsLe]
    exact ⟨fun _ h => (nomatch h), fun _ => trivial⟩
  | a :: as, [] => by
    simp only [charsLe]
    constructor
    · intro h; exact absurd h (by simp)
    · intro h; exact absurd (List.lt.nil a as) h
  | a :: as, b :: bs => by
    simp only [charsLe]
    by_cases hab : a < b
    · simp only [if_pos hab, true_iff]
      intro h
      cases h with
      | head _ _ hba => exact absurd hab (asymm hba)
      | tail hba hab' _ => exact hab' hab
    · rw [if_neg hab]
      by_cases hba : b < a
      · rw [if_pos hba]
        constructor
        · intro h; exact absurd h (by simp)
        · intro h; exact absurd (List.lt.head _ _ hba) h
      · rw [if_neg hba]
        rw [charsLe_iff as bs]
        constructor
        · intro h hlt
          cases hlt with
          | head _ _ hba' => exact hba hba'
          | tail _ _ htail => exact h htail
        · intro h hlt
          exact h (List.lt.tail hba hab hlt)

/-- `strLe` is the Boolean form of `≤` on `String`. -/
theorem strLe_iff_le (a b : String) : strLe a b = true ↔ a ≤ b := by
  have hlt : (b < a) ↔ List.lt b.data a.data :=
    String.lt_iff_toList_lt.trans (List.lt_iff_lex_lt b.data a.data).symm
  show charsLe a.data b.data = true ↔ ¬ b < a
  rw [charsLe_iff, hlt]

/-- The first loop of lines 247–252: for each original stem in sorted
order, pair its file with the clone file of the same stem when present. -/
def origDrivenPairs (origs clones : List String) :
    List (Option String × Option String) :=
  let cfiles := buildFiles clones
  (sortItems (buildFiles origs)).map fun nf =>
    match lookupAssoc nf.1 cfiles with
    | some cf => (some nf.2, some cf)
    | none => (some nf.2, none)

/-- The `matched_clones` set after the first loop: original stems that were
found in the clone dict (line 250). -/
def matchedClones (origs clones : List String) : List String :=
  ((sortItems (buildFiles origs)).filter
    fun nf => (lookupAssoc nf.1 (buildFiles clones)).isSome).map Prod.fst

/-- The clone-sorted items surviving the second loop's guard
(lines 254–256): clone stems not already matched. -/
def cloneOnlyItems (origs clones : List String) : List (String × String) :=
  (sortItems (buildFiles clones)).filter
    fun nf => !(matchedClones origs clones).contains nf.1

/-- The second loop of lines 254–256: an original-absent pair per
unmatched clone stem, in sorted order. -/
def cloneOnlyPairs (origs clones : List String) :
    List (Option String × Option String) :=
  (cloneOnlyItems origs clones).map fun nf => ((none : Option String), some nf.2)

/-- `match_screenshots` (lines 229–258) on the two directories' file-name
lists: original-driven pairs followed by clone-only pairs. -/
def match_screenshots (origs clones : List String) :
    List (Option String × Option String) :=
  origDrivenPairs origs clones ++ cloneOnlyPairs origs clones

/-! ## Per-page results and exit behavior (`main`, lines 450–738) -/

/-- A value in a result dict: a string, a number, Python `None`, or a
region list. -/
inductive EVal where
  | s (v : String)
  | q (v : ℚ)
  | nil
  | rlist (v : List RegionScore)
deriving DecidableEq, Repr

/-- A per-page result dict, as an ordered key–value list. -/
abbrev Entry := List (String × EVal)

/-- The entry of lines 546/551 for a pair with an absent side:
`{"name": name, "status": "missing", "similarity": "N/A"}`. -/
def missingEntry (name : String) : Entry :=
  [("name", .s name), ("status", .s "missing"), ("similarity", .s "N/A")]

/-- The entry of line 559 when opening either image raises:
`{"name": name, "status": "fail", "similarity": 0.0}`. -/
def loadErrorEntry (name : String) : Entry :=
  [("name", .s name), ("status", .s "fail"), ("similarity", .q 0)]

/-- The console line of line 558: `f"{name:<40} {'ERROR':>10}  {e}"`. -/
def loadErrorLine (name msg : String) : String :=
  (name ++ String.mk (List.replicate (40 - name.length) ' ')) ++ " " ++
    (String.mk (List.replicate (10 - "ERROR".length) ' ') ++ "ERROR") ++ "  " ++ msg

/-- The entry of lines 595–624 for a successfully loaded pair: the six
always-present keys, then `diff_rel` when pixel similarity is below 100,
`heatmap_rel` when an SSIM diff map was produced, and `regions` when
region analysis ran (`args.regions > 1`). -/
def okEntry (metric : String) (threshold : ℚ) (name : String) (pixelSim : ℚ)
    (ssimScore : Option ℚ) (origFile cloneFile : String)
    (regions : Option (List RegionScore)) : Entry :=
  [("name", .s name), ("similarity", .q pixelSim),
   ("ssim_score", match ssimScore with | some v => .q v | none => .nil),
   ("status", .s (pageStatus metric ssimScore pixelSim threshold)),
   ("original_rel", .s ("originals/" ++ origFile)),
   ("clone_rel", .s ("clones/" ++ cloneFile))]
  ++ (if pixelSim < 100 then [("diff_rel", .s ("diffs/" ++ name ++ "_diff.png"))] else [])
  ++ (match ssimScore with
      | some _ => [("heatmap_rel", .s ("heatmaps/" ++ name ++ "_heatmap.png"))]
      | none => [])
  ++ (match regions with
      | some rs => [("regions", .rlist rs)]
      | none => [])

/-- What the comparison loop observes about one pair: an absent side, a
load failure with its exception text, or loaded images with their computed
scores. -/
inductive PairOutcome where
  | missingOriginal (name : String)
  | missingClone (name : String)
  | loadError (name msg : String)
  | ok (name : String) (pixelSim : ℚ) (ssimScore : Option ℚ)
      (origFile cloneFile : String) (regions : Option (List RegionScore))
deriving DecidableEq, Repr

/-- One iteration of the loop of lines 541–625: the entry appended to
`results` for the pair's outcome. -/
def entryOf (metric : String) (threshold : ℚ) : PairOutcome → Entry
  | .missingOriginal name => missingEntry name
  | .missingClone name => missingEntry name
  | .loadError name _ => loadErrorEntry name
  | .ok name pixelSim ssimScore origFile cloneFile regions =>
      okEntry metric threshold name pixelSim ssimScore origFile cloneFile regions

/-- The whole comparison loop: every pair contributes exactly one entry
(each branch appends once and continues to the next pair). -/
def processPairs (metric : String) (threshold : ℚ) (ps : List PairOutcome) :
    List Entry :=
  ps.map (entryOf metric threshold)

/-- The exit status of `main`. The only exits are `sys.exit(1)` when an
input directory is missing (lines 500–506) and `sys.exit(0)` when no
screenshots were found (lines 523–525); after the comparison loop, `main`
prints the summary and the report path and returns normally
(lines 627–734), so a completed run exits 0. -/
def mainExitCode (originalDirExists cloneDirExists : Bool)
    (pairs : List PairOutcome) : ℕ :=
  if originalDirExists = false then 1
  else if cloneDirExists = false then 1
  else if pairs.isEmpty then 0
  else 0

/-- The responsive breakpoint comparison of lines 709–718: SSIM when the
metric is `"ssim"` and the capability is present, pixel otherwise; the
entry records `(score, metric-actually-used)`. -/
def breakpointComparison (hasSSIM : Bool) (metric : String)
    (ssimScore pixelScore : ℚ) : ℚ × String :=
  if metric = "ssim" ∧ hasSSIM = true then (ssimScore, "ssim")
  else (pixelScore, "pixel")

end VisualDiff

namespace VisualDiff

/-! ## Claims -/

/-- C1: for a compared pair where both images load, the status is `"pass"`
exactly when the primary-metric score is at least the threshold and
`"fail"` otherwise; default thresholds are 95.0 for the pixel metric and
0.95 for SSIM, an explicit `--threshold` overrides them; and a pair with
either side absent always gets status `"missing"`, regardless of any
score. -/
theorem status_threshold_spec (metric : String) (t p v : ℚ) (s : Option ℚ)
    (name origFile cloneFile : String) (regions : Option (List RegionScore)) :
    (entryOf metric t (.missingOriginal name)).lookup "status" = some (.s "missing") ∧
    (entryOf metric t (.missingClone name)).lookup "status" = some (.s "missing") ∧
    (entryOf metric t (.ok name p s origFile cloneFile regions)).lookup "status"
      = some (.s (pageStatus metric s p t)) ∧
    pageStatus "ssim" (some v) p t = (if v ≥ t then "pass" else "fail") ∧
    pageStatus "pixel" s p t = (if p ≥ t then "pass" else "fail") ∧
    resolveThreshold none "ssim" = 95 / 100 ∧
    resolveThreshold none "pixel" = 95 ∧
    resolveThreshold (some t) metric = t := by
  have hne : ("pixel" : String) ≠ "ssim" := by decide
  refine ⟨rfl, rfl, ?_, ?_, ?_, rfl, ?_, rfl⟩
  · simp [entryOf, okEntry, List.lookup]
  · simp [pageStatus, statusFor]
  · cases s with
    | none => rfl
    | some w => simp [pageStatus, hne, statusFor]
  · simp [resolveThreshold, hne]

/-- C2: the code bug — a run containing a page whose status is `"fail"`
still exits with code 0, because `main` returns normally after the
comparison loop and never raises a non-zero exit for failures. -/
theorem exit_code_zero_despite_fail :
    (processPairs "pixel" 95 [.ok "home" 0 none "home.png" "home.png" none]).map
        (fun e => e.lookup "status") = [some (.s "fail")] ∧
    mainExitCode true true [.ok "home" 0 none "home.png" "home.png" none] = 0 := by
  constructor
  · decide
  · rfl

/-- C3: with the structural-similarity capability unavailable, the
requested metric resolves to `"pixel"`, every region entry is scored with
pixel similarity and records metric `"pixel"`, and every breakpoint
comparison likewise falls back to the pixel score and records `"pixel"`. -/
theorem ssim_fallback_spec (ssimF : Img → Img → ℚ) (img1 img2 : Img) (n : ℕ)
    (metric : String) (s p : ℚ) :
    resolveMetric "ssim" false = "pixel" ∧
    calculate_region_scores ssimF false img1 img2 n metric
      = (List.range n).map (fun i =>
          let box := crop_box img1.length n i
          { label := regionLabel n i,
            score := calculate_pixel_similarity (cropRows img1 box.1 box.2)
              (cropRows img2 box.1 box.2),
            metric := "pixel" }) ∧
    ((calculate_region_scores ssimF false img1 img2 n metric).all
        fun r => r.metric == "pixel") = true ∧
    breakpointComparison false metric s p = (p, "pixel") := by
  refine ⟨by simp [resolveMetric], ?_, ?_, by simp [breakpointComparison]⟩
  · simp [calculate_region_scores]
  · simp [calculate_region_scores, List.all_eq_true]

/-- A pixel always matches itself: every channel difference is zero. -/
theorem pixelMatches_self (p : Pixel) : pixelMatches p p = true := by
  simp [pixelMatches, chDiff]

/-- Zipping a list with itself and counting matching pixels counts
everything. -/
theorem countP_zip_self (l : List Pixel) :
    (l.zip l).countP (fun pq => pixelMatches pq.1 pq.2) = l.length := by
  induction l with
  | nil => rfl
  | cons a t ih => simp [List.zip_cons_cons, List.countP_cons, ih, pixelMatches_self]

/-- C4: on equal-sized images, pixel similarity is the matching-pixel count
over the total pixel count, times 100; it lies in `[0, 100]`; a zero-pixel
image yields `0.0` rather than a division error; and a non-empty image
compared with itself yields exactly `100.0`. -/
theorem pixel_similarity_spec (img1 img2 : Img)
    (hsize : img1.flatten.length = img2.flatten.length) :
    calculate_pixel_similarity img1 img2
      = (if img1.flatten.length = 0 then 0
         else (((img1.flatten.zip img2.flatten).countP
                  fun pq => pixelMatches pq.1 pq.2 : ℕ) : ℚ)
             / (img1.flatten.length : ℚ) * 100) ∧
    0 ≤ calculate_pixel_similarity img1 img2 ∧
    calculate_pixel_similarity img1 img2 ≤ 100 ∧
    (img1.flatten.length = 0 → calculate_pixel_similarity img1 img2 = 0) ∧
    (img1 = img2 → img1.flatten.length ≠ 0 →
      calculate_pixel_similarity img1 img2 = 100) := by
  have key : calculate_pixel_similarity img1 img2
      = if img1.flatten.length = 0 then 0
        else (((img1.flatten.zip img2.flatten).countP
                 fun pq => pixelMatches pq.1 pq.2 : ℕ) : ℚ)
            / (img1.flatten.length : ℚ) * 100 := rfl
  have hcount : (img1.flatten.zip img2.flatten).countP
      (fun pq => pixelMatches pq.1 pq.2) ≤ img1.flatten.length :=
    le_trans (List.countP_le_length _)
      (by rw [List.length_zip]; exact min_le_left _ _)
  refine ⟨key, ?_, ?_, ?_, ?_⟩
  · rw [key]
    split_ifs with h0
    · exact le_refl 0
    · positivity
  · rw [key]
    split_ifs with h0
    · norm_num
    · have hlpos : (0 : ℚ) < (img1.flatten.length : ℚ) := by
        exact_mod_cast Nat.pos_of_ne_zero h0
      have hdiv : (((img1.flatten.zip img2.flatten).countP
            fun pq => pixelMatches pq.1 pq.2 : ℕ) : ℚ)
          / (img1.flatten.length : ℚ) ≤ 1 :=
        (div_le_one hlpos).2 (by exact_mod_cast hcount)
      calc (((img1.flatten.zip img2.flatten).countP
              fun pq => pixelMatches pq.1 pq.2 : ℕ) : ℚ)
            / (img1.flatten.length : ℚ) * 100
          ≤ 1 * 100 := by
            exact mul_le_mul_of_nonneg_right hdiv (by norm_num)
        _ = 100 := by norm_num
  · intro h0
    rw [key, if_pos h0]
  · intro heq h0
    subst heq
    rw [key, if_neg h0, countP_zip_self]
    rw [div_self (by exact_mod_cast h0)]
    norm_num

/-- Sample call of `pixel_similarity_spec`: a one-row pair of equal-sized
images, one of two pixels differing beyond tolerance, scores 50. -/
theorem pixel_similarity_spec_witness :
    (([[(0, 0, 0), (200, 0, 0)]] : Img).flatten.length
      = ([[(0, 0, 0), (0, 0, 0)]] : Img).flatten.length) ∧
    0 ≤ calculate_pixel_similarity [[(0, 0, 0), (200, 0, 0)]]
        [[(0, 0, 0), (0, 0, 0)]] ∧
    calculate_pixel_similarity [[(0, 0, 0), (200, 0, 0)]]
        [[(0, 0, 0), (0, 0, 0)]] ≤ 100 ∧
    calculate_pixel_similarity [[(0, 0, 0), (200, 0, 0)]]
        [[(0, 0, 0), (0, 0, 0)]] = 50 :=
  ⟨by decide,
   (pixel_similarity_spec _ _ (by decide)).2.1,
   (pixel_similarity_spec _ _ (by decide)).2.2.1,
   by
    have h : calculate_pixel_similarity [[(0, 0, 0), (200, 0, 0)]]
        [[(0, 0, 0), (0, 0, 0)]] = ((1 : ℕ) : ℚ) / ((2 : ℕ) : ℚ) * 100 := rfl
    rw [h]; norm_num⟩

/-- Element lookup commutes with `zipWith` when both inputs are present. -/
theorem getElem?_zipWith_of_some {α β γ : Type} (f : α → β → γ) :
    ∀ (l1 : List α) (l2 : List β) (i : ℕ) (a : α) (b : β),
      l1[i]? = some a → l2[i]? = some b →
      (List.zipWith f l1 l2)[i]? = some (f a b) := by
  intro l1
  induction l1 with
  | nil => intro l2 i a b h1 _; simp at h1
  | cons x xs ih =>
    intro l2 i a b h1 h2
    cases l2 with
    | nil => simp at h2
    | cons y ys =>
      cases i with
      | zero =>
        simp only [List.getElem?_cons_zero, Option.some.injEq] at h1 h2
        subst h1; subst h2
        simp [List.zipWith_cons_cons]
      | succ n =>
        simp only [List.getElem?_cons_succ] at h1 h2
        simpa [List.zipWith_cons_cons] using ih ys n a b h1 h2

/-- C8: a pixel of the overlay is red with `alpha = min(255, 2 * diff_sum)`
exactly when its summed channel difference exceeds 30, and fully
transparent otherwise; at a location at or below the threshold the
composited output equals the original pixel exactly; and for two identical
images every overlay pixel is transparent. -/
theorem diff_overlay_spec (d1 d2 : List Pixel) (i : ℕ) (p q : Pixel)
    (h1 : d1[i]? = some p) (h2 : d2[i]? = some q) :
    (highlightData d1 d2)[i]?
      = some (if chDiff p.1 q.1 + chDiff p.2.1 q.2.1 + chDiff p.2.2 q.2.2 > 30
              then (255, 0, 0,
                min 255 ((chDiff p.1 q.1 + chDiff p.2.1 q.2.1
                  + chDiff p.2.2 q.2.2) * 2))
              else (0, 0, 0, 0)) ∧
    (chDiff p.1 q.1 + chDiff p.2.1 q.2.1 + chDiff p.2.2 q.2.2 ≤ 30 →
      (generate_diff_image d1 d2)[i]?
        = some ((p.1 : ℚ), (p.2.1 : ℚ), (p.2.2 : ℚ))) ∧
    (d1 = d2 → ∀ x ∈ highlightData d1 d2, x = (0, 0, 0, 0)) := by
  have hz := getElem?_zipWith_of_some diffPixel d1 d2 i p q h1 h2
  have hm : (highlightData d1 d2)[i]? = some (highlightPixel (diffPixel p q)) := by
    unfold highlightData
    rw [List.getElem?_map, hz]
    rfl
  refine ⟨by rw [hm]; rfl, ?_, ?_⟩
  · intro hle
    have htrans : highlightPixel (diffPixel p q) = (0, 0, 0, 0) := by
      simp only [highlightPixel, diffPixel]
      rw [if_neg (by omega)]
    have hc := getElem?_zipWith_of_some alphaCompositePixel d1 (highlightData d1 d2)
      i p (highlightPixel (diffPixel p q)) h1 hm
    rw [htrans] at hc
    unfold generate_diff_image
    rw [hc]
    simp [alphaCompositePixel]
  · intro heq x hx
    subst heq
    unfold highlightData at hx
    rw [List.zipWith_same] at hx
    rw [List.map_map] at hx
    obtain ⟨a, _, rfl⟩ := List.mem_map.1 hx
    simp [Function.comp, diffPixel, highlightPixel, chDiff]

/-- Sample call of `diff_overlay_spec`: one differing pixel (summed
difference 100) is highlighted red with alpha 200. -/
theorem diff_overlay_spec_witness :
    (highlightData [(0, 0, 0)] [(100, 0, 0)])[0]?
      = some (if chDiff 0 100 + chDiff 0 0 + chDiff 0 0 > 30
              then (255, 0, 0,
                min 255 ((chDiff 0 100 + chDiff 0 0 + chDiff 0 0) * 2))
              else (0, 0, 0, 0)) ∧
    (chDiff 0 100 + chDiff 0 0 + chDiff 0 0 ≤ 30 →
      (generate_diff_image [(0, 0, 0)] [(100, 0, 0)])[0]?
        = some ((0 : ℚ), (0 : ℚ), (0 : ℚ))) ∧
    ([((0 : ℕ), (0 : ℕ), (0 : ℕ))] = [(100, 0, 0)] →
      ∀ x ∈ highlightData [(0, 0, 0)] [(100, 0, 0)], x = (0, 0, 0, 0)) :=
  diff_overlay_spec [(0, 0, 0)] [(100, 0, 0)] 0 (0, 0, 0) (100, 0, 0) rfl rfl

/-- C6 counterexample: an original `Home.png` and a clone `home.png`,
whose stems differ only in capitalization, are not matched into a single
pair — the matcher emits two pairs, each with an absent side. -/
theorem capitalized_stems_not_matched :
    match_screenshots ["Home.png"] ["home.png"]
      = [(some "Home.png", none), (none, some "home.png")] ∧
    ((match_screenshots ["Home.png"] ["home.png"]).all
      fun pr => !(pr.1.isSome && pr.2.isSome)) = true := by
  constructor <;> decide

/-- C6 amended: files with the same (case-sensitive) stem are matched as
one pair even when their extensions differ, including extension case;
files whose stems differ only in capitalization are treated as distinct
pages and yield separate missing-side pairs. -/
theorem stem_matching_case_sensitive :
    match_screenshots ["home.png"] ["home.jpg"]
      = [(some "home.png", some "home.jpg")] ∧
    match_screenshots ["home.PNG"] ["home.png"]
      = [(some "home.PNG", some "home.png")] ∧
    match_screenshots ["About.png"] ["about.png"]
      = [(some "About.png", none), (none, some "about.png")] ∧
    stem "Home.png" ≠ stem "home.png" ∧
    stem "home.png" = stem "home.jpg" := by
  refine ⟨by decide, by decide, by decide, by decide, by decide⟩

instance : IsTotal (String × String) (fun a b => strLe a.1 b.1 = true) :=
  ⟨by
    intro a b
    rcases le_total a.1 b.1 with h | h
    · exact Or.inl ((strLe_iff_le _ _).2 h)
    · exact Or.inr ((strLe_iff_le _ _).2 h)⟩

instance : IsTrans (String × String) (fun a b => strLe a.1 b.1 = true) :=
  ⟨fun _ _ _ h1 h2 =>
    (strLe_iff_le _ _).2
      (le_trans ((strLe_iff_le _ _).1 h1) ((strLe_iff_le _ _).1 h2))⟩

/-- C5: on original stems `{a, b}` and clone stems `{a, c}` the matcher
yields exactly the three pairs `a` (matched), `b` (clone absent), `c`
(original absent), in that order; in general the output is the
original-driven pairs in ascending stem order followed by the clone-only
pairs in ascending stem order. -/
theorem pairing_order_spec (origs clones : List String) :
    match_screenshots ["a.png", "b.png"] ["a.png", "c.png"]
      = [(some "a.png", some "a.png"), (some "b.png", none), (none, some "c.png")] ∧
    match_screenshots origs clones
      = origDrivenPairs origs clones ++ cloneOnlyPairs origs clones ∧
    List.Sorted (· ≤ ·) ((sortItems (buildFiles origs)).map Prod.fst) ∧
    List.Sorted (· ≤ ·) ((cloneOnlyItems origs clones).map Prod.fst) ∧
    ((origDrivenPairs origs clones).all fun pr => pr.1.isSome) = true ∧
    ((cloneOnlyPairs origs clones).all
      fun pr => pr.1 == none && pr.2.isSome) = true := by
  refine ⟨by decide, rfl, ?_, ?_, ?_, ?_⟩
  · have hs := List.sorted_insertionSort
      (fun a b : String × String => strLe a.1 b.1 = true) (buildFiles origs)
    rw [List.Sorted, List.pairwise_map]
    exact hs.imp fun h => (strLe_iff_le _ _).1 h
  · have hs := List.sorted_insertionSort
      (fun a b : String × String => strLe a.1 b.1 = true) (buildFiles clones)
    rw [List.Sorted, List.pairwise_map]
    exact (hs.filter _).imp fun h => (strLe_iff_le _ _).1 h
  · simp only [origDrivenPairs, List.all_eq_true]
    intro pr hpr
    obtain ⟨nf, _, rfl⟩ := List.mem_map.1 hpr
    cases h : lookupAssoc nf.1 (buildFiles clones) <;> simp [h]
  · simp only [cloneOnlyPairs, List.all_eq_true]
    intro pr hpr
    obtain ⟨nf, _, rfl⟩ := List.mem_map.1 hpr
    rfl

/-- Membership after a dict assignment: the element is the new binding or
was already present. -/
theorem mem_insertAssoc {k v : String} :
    ∀ {l : List (String × String)} {kv},
      kv ∈ insertAssoc k v l → kv = (k, v) ∨ kv ∈ l := by
  intro l
  induction l with
  | nil =>
    intro kv h
    simp only [insertAssoc, List.mem_singleton] at h
    exact Or.inl h
  | cons hd tl ih =>
    intro kv h
    obtain ⟨k', v'⟩ := hd
    simp only [insertAssoc] at h
    by_cases hk : k' = k
    · rw [if_pos hk] at h
      rcases List.mem_cons.1 h with rfl | htl
      · exact Or.inl (by rw [hk])
      · exact Or.inr (List.mem_cons_of_mem _ htl)
    · rw [if_neg hk] at h
      rcases List.mem_cons.1 h with rfl | htl
      · exact Or.inr (List.mem_cons_self _ _)
      · rcases ih htl with h1 | h2
        · exact Or.inl h1
        · exact Or.inr (List.mem_cons_of_mem _ h2)

/-- Every binding produced by the dict-building loop came from a file of
the directory that passed the extension filter, keyed by its stem. -/
theorem buildFilesAux_mem :
    ∀ (fs : List String) (acc : List (String × String)) kv,
      kv ∈ buildFilesAux acc fs →
      kv ∈ acc ∨ (allowedExt kv.2 = true ∧ kv.2 ∈ fs ∧ kv.1 = stem kv.2) := by
  intro fs
  induction fs with
  | nil =>
    intro acc kv h
    exact Or.inl h
  | cons f rest ih =>
    intro acc kv h
    simp only [buildFilesAux] at h
    rcases ih _ kv h with hacc | ⟨ha, hmem, hs⟩
    · by_cases hf : allowedExt f
      · rw [if_pos hf] at hacc
        rcases mem_insertAssoc hacc with rfl | hacc'
        · exact Or.inr ⟨hf, List.mem_cons_self f rest, rfl⟩
        · exact Or.inl hacc'
      · rw [if_neg hf] at hacc
        exact Or.inl hacc
    · exact Or.inr ⟨ha, List.mem_cons_of_mem f hmem, hs⟩

/-- Every binding of `buildFiles` is a filtered file keyed by its stem. -/
theorem buildFiles_mem {fs : List String} {kv : String × String}
    (h : kv ∈ buildFiles fs) :
    allowedExt kv.2 = true ∧ kv.2 ∈ fs ∧ kv.1 = stem kv.2 := by
  rcases buildFilesAux_mem fs [] kv h with h0 | h1
  · simp at h0
  · exact h1

/-- A successful dict lookup returns a binding of the list. -/
theorem lookupAssoc_mem :
    ∀ {l : List (String × String)} {k v : String},
      lookupAssoc k l = some v → (k, v) ∈ l := by
  intro l
  induction l with
  | nil => intro k v h; simp [lookupAssoc] at h
  | cons hd tl ih =>
    intro k v h
    obtain ⟨k', v'⟩ := hd
    simp only [lookupAssoc] at h
    by_cases hk : k' = k
    · rw [if_pos hk] at h
      obtain rfl := Option.some.inj h
      subst hk
      exact List.mem_cons_self _ _
    · rw [if_neg hk] at h
      exact List.mem_cons_of_mem _ (ih h)

/-- C10: only files whose lowercased extension is `.png`, `.jpg`, `.jpeg`
or `.webp` ever appear in a pair — any other file of either directory is
ignored (e.g. `.html` and `.gif` files produce no pair at all). -/
theorem extension_filter_spec (origs clones : List String)
    (pr : Option String × Option String)
    (hm : pr ∈ match_screenshots origs clones) :
    match_screenshots ["a.html", "c.png", "d.gif"] ["c.png", "e.css"]
      = [(some "c.png", some "c.png")] ∧
    (∀ f, pr.1 = some f → allowedExt f = true ∧ f ∈ origs) ∧
    (∀ f, pr.2 = some f → allowedExt f = true ∧ f ∈ clones) := by
  refine ⟨by decide, ?_, ?_⟩
  all_goals
    rcases List.mem_append.1 hm with h | h
  case _ =>
    simp only [origDrivenPairs] at h
    obtain ⟨nf, hnf, hpr⟩ := List.mem_map.1 h
    have hbf : nf ∈ buildFiles origs := (List.mem_insertionSort _).1 hnf
    obtain ⟨ha, hmem, _⟩ := buildFiles_mem hbf
    intro f hf
    cases hlk : lookupAssoc nf.1 (buildFiles clones) <;>
      rw [hlk] at hpr <;> rw [← hpr] at hf <;>
      obtain rfl := Option.some.inj hf <;> exact ⟨ha, hmem⟩
  case _ =>
    simp only [cloneOnlyPairs] at h
    obtain ⟨nf, hnf, hpr⟩ := List.mem_map.1 h
    intro f hf
    rw [← hpr] at hf
    simp at hf
  case _ =>
    simp only [origDrivenPairs] at h
    obtain ⟨nf, hnf, hpr⟩ := List.mem_map.1 h
    intro f hf
    cases hlk : lookupAssoc nf.1 (buildFiles clones) with
    | none => rw [hlk] at hpr; rw [← hpr] at hf; simp at hf
    | some cf =>
      rw [hlk] at hpr
      rw [← hpr] at hf
      obtain rfl := Option.some.inj hf
      obtain ⟨ha, hmem, _⟩ := buildFiles_mem (lookupAssoc_mem hlk)
      exact ⟨ha, hmem⟩
  case _ =>
    simp only [cloneOnlyPairs] at h
    obtain ⟨nf, hnf, hpr⟩ := List.mem_map.1 h
    have hbf : nf ∈ buildFiles clones :=
      (List.mem_insertionSort _).1 (List.mem_of_mem_filter hnf)
    obtain ⟨ha, hmem, _⟩ := buildFiles_mem hbf
    intro f hf
    rw [← hpr] at hf
    obtain rfl := Option.some.inj hf
    exact ⟨ha, hmem⟩

/-- Sample call of `extension_filter_spec`: the surviving pair's file has
an allowed extension and came from the original directory listing. -/
theorem extension_filter_spec_witness :
    (some "c.png", some "c.png")
        ∈ match_screenshots ["a.html", "c.png", "d.gif"] ["c.png", "e.css"] ∧
    allowedExt "c.png" = true ∧ "c.png" ∈ ["a.html", "c.png", "d.gif"] := by
  have hm : (some "c.png", some "c.png")
      ∈ match_screenshots ["a.html", "c.png", "d.gif"] ["c.png", "e.css"] := by
    decide
  exact ⟨hm, (extension_filter_spec _ _ _ hm).2.1 "c.png" rfl⟩

/-- C7: for region count `N ≥ 2` the partitioner returns exactly `N`
region scores in top-to-bottom order; each of the first `N − 1` crop
boxes has height `floor(height / N)`, the last box ends at the image
bottom, consecutive boxes are contiguous and each is well-formed (so the
bands tile the full height with no gaps or overlaps); the first label is
suffixed `(top)`, the last `(bottom)`, and interior labels carry only the
band number. -/
theorem region_partition_spec (ssimF : Img → Img → ℚ) (hasSSIM : Bool)
    (img1 img2 : Img) (n : ℕ) (metric : String) (hn : 2 ≤ n) :
    (calculate_region_scores ssimF hasSSIM img1 img2 n metric).length = n ∧
    (crop_box img1.length n 0).1 = 0 ∧
    (crop_box img1.length n (n - 1)).2 = img1.length ∧
    (∀ i, i < n - 1 →
      (crop_box img1.length n i).2 - (crop_box img1.length n i).1
        = img1.length / n) ∧
    (∀ i, i + 1 < n →
      (crop_box img1.length n (i + 1)).1 = (crop_box img1.length n i).2) ∧
    (∀ i, i < n → (crop_box img1.length n i).1 ≤ (crop_box img1.length n i).2) ∧
    ((calculate_region_scores ssimF hasSSIM img1 img2 n metric).map
        RegionScore.label
      = (List.range n).map (regionLabel n)) ∧
    regionLabel n 0 = "Region 1 (top)" ∧
    regionLabel n (n - 1) = "Region " ++ toString n ++ " (bottom)" ∧
    (∀ i, 0 < i → i < n - 1 → regionLabel n i = "Region " ++ toString (i + 1)) := by
  refine ⟨?_, ?_, ?_, ?_, ?_, ?_, ?_, ?_, ?_, ?_⟩
  · simp [calculate_region_scores]
  · simp [crop_box]
  · simp [crop_box]
  · intro i hi
    have hne : i ≠ n - 1 := by omega
    simp only [crop_box]
    rw [if_neg hne, Nat.succ_mul]
    exact Nat.add_sub_cancel_left _ _
  · intro i hi
    have hne : i ≠ n - 1 := by omega
    simp only [crop_box]
    rw [if_neg hne]
  · intro i hi
    by_cases hin : i = n - 1
    · subst hin
      simp only [crop_box, if_pos, if_true]
      calc (n - 1) * (img1.length / n)
          ≤ n * (img1.length / n) := Nat.mul_le_mul_right _ (by omega)
        _ = img1.length / n * n := Nat.mul_comm _ _
        _ ≤ img1.length := Nat.div_mul_le_self _ _
    · simp only [crop_box]
      rw [if_neg hin]
      exact Nat.mul_le_mul_right _ (by omega)
  · simp [calculate_region_scores, List.map_map, Function.comp,
      apply_ite RegionScore.label]
  · simp only [regionLabel, if_pos, if_true]
    rfl
  · have h0 : n - 1 ≠ 0 := by omega
    have h1 : n - 1 + 1 = n := by omega
    simp only [regionLabel]
    rw [if_neg h0]
    simp only [if_pos, if_true]
    rw [h1]
  · intro i h1 h2
    simp only [regionLabel]
    rw [if_neg (by omega), if_neg (by omega)]

/-- Sample call of `region_partition_spec`: a 10-row image cut into 4
bands of heights 2, 2, 2 and 4. -/
theorem region_partition_spec_witness :
    (calculate_region_scores (fun _ _ => 0) false
        (List.replicate 10 [((0 : ℕ), (0 : ℕ), (0 : ℕ))])
        (List.replicate 10 [((0 : ℕ), (0 : ℕ), (0 : ℕ))]) 4 "pixel").length = 4 ∧
    (crop_box (List.replicate 10 [((0 : ℕ), (0 : ℕ), (0 : ℕ))]).length 4 0).1 = 0 ∧
    (crop_box (List.replicate 10 [((0 : ℕ), (0 : ℕ), (0 : ℕ))]).length 4 (4 - 1)).2
      = (List.replicate 10 [((0 : ℕ), (0 : ℕ), (0 : ℕ))]).length ∧
    (∀ i, i < 4 - 1 →
      (crop_box (List.replicate 10 [((0 : ℕ), (0 : ℕ), (0 : ℕ))]).length 4 i).2
          - (crop_box (List.replicate 10 [((0 : ℕ), (0 : ℕ), (0 : ℕ))]).length 4 i).1
        = (List.replicate 10 [((0 : ℕ), (0 : ℕ), (0 : ℕ))]).length / 4) ∧
    (∀ i, i + 1 < 4 →
      (crop_box (List.replicate 10 [((0 : ℕ), (0 : ℕ), (0 : ℕ))]).length 4 (i + 1)).1
        = (crop_box (List.replicate 10 [((0 : ℕ), (0 : ℕ), (0 : ℕ))]).length 4 i).2) ∧
    (∀ i, i < 4 →
      (crop_box (List.replicate 10 [((0 : ℕ), (0 : ℕ), (0 : ℕ))]).length 4 i).1
        ≤ (crop_box (List.replicate 10 [((0 : ℕ), (0 : ℕ), (0 : ℕ))]).length 4 i).2) ∧
    ((calculate_region_scores (fun _ _ => 0) false
        (List.replicate 10 [((0 : ℕ), (0 : ℕ), (0 : ℕ))])
        (List.replicate 10 [((0 : ℕ), (0 : ℕ), (0 : ℕ))]) 4 "pixel").map
        RegionScore.label
      = (List.range 4).map (regionLabel 4)) ∧
    regionLabel 4 0 = "Region 1 (top)" ∧
    regionLabel 4 (4 - 1) = "Region " ++ toString 4 ++ " (bottom)" ∧
    (∀ i, 0 < i → i < 4 - 1 → regionLabel 4 i = "Region " ++ toString (i + 1)) :=
  region_partition_spec (fun _ _ => 0) false
    (List.replicate 10 [((0 : ℕ), (0 : ℕ), (0 : ℕ))])
    (List.replicate 10 [((0 : ℕ), (0 : ℕ), (0 : ℕ))]) 4 "pixel" (by norm_num)

/-- C9 counterexample: the result record appended for a page whose image
fails to load carries exactly the keys `name`, `status` (`"fail"`) and
`similarity` (`0.0`); it holds no error detail string — the exception text
(here `"cannot identify image file"`) appears nowhere in the record. -/
theorem load_error_entry_has_no_error_string :
    entryOf "pixel" 95 (.loadError "home" "cannot identify image file")
      = [("name", .s "home"), ("status", .s "fail"), ("similarity", .q 0)] ∧
    (entryOf "pixel" 95
      (.loadError "home" "cannot identify image file")).lookup "error" = none ∧
    ((entryOf "pixel" 95 (.loadError "home" "cannot identify image file")).all
      fun kv => !(kv.2 == .s "cannot identify image file")) = true := by
  refine ⟨rfl, rfl, ?_⟩
  decide

/-- C9 amended: a per-page load failure is caught: the page's record gets
status `"fail"` with score 0.0 (and no error key), the error detail string
is printed in that page's console line, and processing continues — the
loop still produces one entry per remaining pair. -/
theorem load_error_caught_per_page (metric : String) (t : ℚ)
    (name msg : String) (rest : List PairOutcome) :
    (entryOf metric t (.loadError name msg)).lookup "status" = some (.s "fail") ∧
    (entryOf metric t (.loadError name msg)).lookup "similarity" = some (.q 0) ∧
    (entryOf metric t (.loadError name msg)).lookup "error" = none ∧
    (∃ pre, loadErrorLine name msg = pre ++ msg) ∧
    processPairs metric t (.loadError name msg :: rest)
      = loadErrorEntry name :: processPairs metric t rest ∧
    (processPairs metric t rest).length = rest.length := by
  exact ⟨rfl, rfl, rfl, ⟨_, rfl⟩, rfl, List.length_map _ _⟩

end VisualDiff
